import Mathlib

/-!
Verification of the recommendation core of the ATAI movie-assistant
(`Project Submission 3`): session state (`agent/session_manager.py`),
candidate aggregation, constraint filtering, ranking and MMR
diversification (`agent/recommendation_engine.py`), against the
natural-language specification.

Modelling conventions:
* Python `dict`s are modelled as insertion-ordered association lists
  (`List (String × α)`), matching CPython's order-preserving dicts.
* Python `set`s whose iteration order is observed by the code (the
  per-candidate `reasons` set) are modelled as duplicate-free lists in
  some iteration order; CPython's set iteration order for strings is
  hash-randomized across processes, so theorems quantify over (or pick)
  a realization order where that matters.
* Python floats are modelled as exact rationals `Rat` (all constants in
  the relevant code paths are small decimals).
* Exceptions are modelled with `Except PyErr`; a `try/except` block is a
  `match` on the result.  Calling an attribute that a class does not
  define raises `AttributeError`; the set of methods that the class
  `EmbeddingExecutor` (agent/embedding_executor.py) actually defines is
  reproduced verbatim below, so "this call raises AttributeError" is a
  decidable statement about the source.
-/

/-- Python exception values, coarsely. -/
inductive PyErr where
  | attributeError
  | indexError
  | keyError
  | other
  deriving DecidableEq, Repr

/-- Association-list lookup with `=` on string keys (model of `d[k]` /
`k in d` on a Python dict). -/
def alookup {α : Type} (k : String) : List (String × α) → Option α
  | [] => none
  | p :: ps => if p.1 = k then some p.2 else alookup k ps

/-- Model of `d[k] = v` on a Python dict: an existing key keeps its
position and gets the new value, a new key is appended. -/
def dictSet {α : Type} (d : List (String × α)) (k : String) (v : α) : List (String × α) :=
  if (alookup k d).isSome then
    d.map (fun p => if p.1 = k then (p.1, v) else p)
  else
    d ++ [(k, v)]

/-- Model of `del d[k]` on a Python dict (keys are unique, so removing
every entry with key `k` removes exactly one). -/
def dictRemove {α : Type} (k : String) (d : List (String × α)) : List (String × α) :=
  d.filter (fun p => p.1 ≠ k)

/-- Model of Python `dict.update`: entries of `new` are written into `d`
left to right with `dictSet` semantics. -/
def dictUpdate {α : Type} (d new : List (String × α)) : List (String × α) :=
  new.foldl (fun acc kv => dictSet acc kv.1 kv.2) d

/-- The per-candidate record `{'score': …, 'reasons': …, 'rating': …}`
built by every candidate source in `recommendation_engine.py`.
`reasons` models a Python `set` of strings as a duplicate-free list in
iteration order. -/
structure CandInfo where
  score : Rat
  reasons : List String
  rating : Rat
  deriving DecidableEq, Repr

/-- The fresh record `{'score': 0.0, 'reasons': set(), 'rating': 0.0}`. -/
def defaultInfo : CandInfo := ⟨0, [], 0⟩

/-- A candidate dictionary `Dict[str, Dict]` (movie IRI → record). -/
abbrev CandMap := List (String × CandInfo)

/-- Model of `set.add`: append the element unless already present. -/
def addReason (rs : List String) (r : String) : List String :=
  if r ∈ rs then rs else rs ++ [r]

/-- Model of `set.update` (line 118 of recommendation_engine.py):
add every element of `new` to `rs`. -/
def updateReasons (rs new : List String) : List String :=
  new.foldl addReason rs

/-- The per-source trust weight chosen inside
`RecommendationEngine.merge_candidates` (lines 105-115): `embed_seed`
gets 0.01, `graph_pref` gets 2.0, every other source 1.0. -/
def score_weight (source_name : String) : Rat :=
  if source_name = "embed_seed" then 1/100
  else if source_name = "graph_pref" then 2
  else 1

/-- The accumulation applied to one candidate's record (lines 117-119):
`score += info.score * weight`, `reasons ∪= info.reasons`,
`rating = max(rating, info.rating)`. -/
def combineInfo (old info : CandInfo) (source_name : String) : CandInfo :=
  ⟨old.score + info.score * score_weight source_name,
   updateReasons old.reasons info.reasons,
   max old.rating info.rating⟩

/-- Rewrite the value stored at key `k` with `f` (keys and order kept). -/
def updEntry (m : CandMap) (k : String) (f : CandInfo → CandInfo) : CandMap :=
  m.map (fun p => if p.1 = k then (p.1, f p.2) else p)

/-- One iteration of the loop in `merge_candidates` (lines 101-119):
insert the default record if the movie is new, then accumulate. -/
def merge_one (m : CandMap) (movie_id : String) (info : CandInfo)
    (source_name : String) : CandMap :=
  let m' := if (alookup movie_id m).isSome then m else m ++ [(movie_id, defaultInfo)]
  updEntry m' movie_id (fun v => combineInfo v info source_name)

/-- `RecommendationEngine.merge_candidates` (lines 94-119): fold the new
source's candidates into the main dictionary. -/
def merge_candidates (main new_candidates : CandMap) (source_name : String) : CandMap :=
  new_candidates.foldl (fun m p => merge_one m p.1 p.2 source_name) main

/-! Basic lemmas about the association-list model. -/

theorem alookup_append {α : Type} (k : String) (m l : List (String × α)) :
    alookup k (m ++ l) =
      match alookup k m with
      | some v => some v
      | none => alookup k l := by
  induction m with
  | nil => rfl
  | cons p ps ih =>
    by_cases h : p.1 = k
    · simp [alookup, h]
    · simp [alookup, h, ih]

theorem alookup_eq_none_of_not_mem_keys {α : Type} (k : String)
    (l : List (String × α)) (h : k ∉ l.map Prod.fst) : alookup k l = none := by
  induction l with
  | nil => rfl
  | cons p ps ih =>
    simp only [List.map_cons, List.mem_cons, not_or] at h
    have hne : ¬ p.1 = k := fun hh => h.1 hh.symm
    simp [alookup, hne, ih h.2]

theorem alookup_updEntry_eq (m : CandMap) (k : String) (f : CandInfo → CandInfo) :
    alookup k (updEntry m k f) = (alookup k m).map f := by
  induction m with
  | nil => rfl
  | cons p ps ih =>
    obtain ⟨pk, pv⟩ := p
    by_cases h : pk = k
    · subst h; simp [updEntry, alookup]
    · simpa [updEntry, alookup, h] using ih

theorem alookup_updEntry_ne (m : CandMap) (k k' : String) (f : CandInfo → CandInfo)
    (h : k' ≠ k) : alookup k' (updEntry m k f) = alookup k' m := by
  induction m with
  | nil => rfl
  | cons p ps ih =>
    obtain ⟨pk, pv⟩ := p
    simp only [updEntry] at ih
    by_cases hp : pk = k
    · subst hp
      have hne : ¬ pk = k' := fun hh => h hh.symm
      simp [updEntry, alookup, hne]
      exact ih
    · by_cases hp' : pk = k'
      · subst hp'
        simp [updEntry, alookup, hp]
      · simp [updEntry, alookup, hp, hp']
        exact ih

theorem alookup_merge_one_eq (m : CandMap) (k : String) (info : CandInfo) (s : String) :
    alookup k (merge_one m k info s) =
      some (combineInfo ((alookup k m).getD defaultInfo) info s) := by
  unfold merge_one
  cases h : alookup k m with
  | some v => simp [h, alookup_updEntry_eq]
  | none =>
    have hap : alookup k (m ++ [(k, defaultInfo)]) = some defaultInfo := by
      rw [alookup_append, h]; simp [alookup]
    simp [h, alookup_updEntry_eq, hap]

theorem alookup_merge_one_ne (m : CandMap) (k k' : String) (info : CandInfo)
    (s : String) (h : k' ≠ k) :
    alookup k' (merge_one m k info s) = alookup k' m := by
  unfold merge_one
  cases hm : (alookup k m).isSome with
  | true => simp [hm, alookup_updEntry_ne _ _ _ _ h]
  | false =>
    have hap : alookup k' (m ++ [(k, defaultInfo)]) = alookup k' m := by
      rw [alookup_append]
      cases hk' : alookup k' m with
      | some v => rfl
      | none =>
        have hne : ¬ k = k' := fun hh => h hh.symm
        simp [alookup, hne]
    simp [hm, alookup_updEntry_ne _ _ _ _ h, hap]

/-- Full characterization of `merge_candidates`: for a source dictionary
with (Python-dict-guaranteed) unique keys, the merge adds
`score * score_weight source`, unions the reasons and maxes the rating
for every entity of the source, and leaves every other entity alone. -/
theorem merge_candidates_spec (new : CandMap) :
    ∀ (main : CandMap) (src e : String), (new.map Prod.fst).Nodup →
      alookup e (merge_candidates main new src) =
        match alookup e new with
        | some info => some (combineInfo ((alookup e main).getD defaultInfo) info src)
        | none => alookup e main := by
  induction new with
  | nil => intro main src e _; rfl
  | cons p rest ih =>
    intro main src e hnd
    rw [List.map_cons, List.nodup_cons] at hnd
    have hstep : merge_candidates main (p :: rest) src =
        merge_candidates (merge_one main p.1 p.2 src) rest src := rfl
    rw [hstep, ih _ src e hnd.2]
    by_cases he : e = p.1
    · rw [he]
      have hrest : alookup p.1 rest = none :=
        alookup_eq_none_of_not_mem_keys p.1 rest hnd.1
      rw [hrest]
      simp [alookup, alookup_merge_one_eq]
    · have hne : ¬ p.1 = e := fun hh => he hh.symm
      rw [show alookup e (p :: rest) = alookup e rest by simp [alookup, hne]]
      cases hr : alookup e rest with
      | some info => simp [alookup_merge_one_ne _ _ _ _ _ he]
      | none => simp [alookup_merge_one_ne _ _ _ _ _ he]

theorem mem_addReason (rs : List String) (r x : String) :
    x ∈ addReason rs r ↔ x ∈ rs ∨ x = r := by
  by_cases h : r ∈ rs
  · simp only [addReason, if_pos h]
    constructor
    · exact Or.inl
    · rintro (hx | rfl) <;> assumption
  · simp [addReason, if_neg h]

theorem mem_updateReasons (b : List String) :
    ∀ (a : List String) (x : String), x ∈ updateReasons a b ↔ x ∈ a ∨ x ∈ b := by
  induction b with
  | nil => intro a x; simp [updateReasons]
  | cons y ys ih =>
    intro a x
    have : updateReasons a (y :: ys) = updateReasons (addReason a y) ys := rfl
    rw [this, ih, mem_addReason]
    simp only [List.mem_cons]
    tauto

/-- Scenario A of the spec, run through the code's `merge_candidates`:
seeds `{"M1"}`, graph source returns M2 with score 2.0 and reason
"shares the genre", embedding source returns M2 with similarity 0.6 and
M3 with similarity 0.4 (reason string from line 191 of the source). -/
def scenarioA : CandMap :=
  merge_candidates
    (merge_candidates [] [("M2", ⟨2, ["shares the genre"], 0⟩)] "graph_seed")
    [("M2", ⟨6/10, ["it\x27s similar to movies you like"], 0⟩),
     ("M3", ⟨4/10, ["it\x27s similar to movies you like"], 0⟩)]
    "embed_seed"

/-- C1 (amended): merge_candidates adds the source's score times the
per-source weight, unions the reasons and maxes the quality signal —
but the per-source weight of the embedding source is 0.01 (not 0.1 as
the claim's scenario assumes), so Scenario A yields merged scores
M2 = 2.006 and M3 = 0.004. -/
theorem C1_merge_exact_weighted_accumulation :
    (∀ (new main : CandMap) (src e : String), (new.map Prod.fst).Nodup →
      alookup e (merge_candidates main new src) =
        match alookup e new with
        | some info => some (combineInfo ((alookup e main).getD defaultInfo) info src)
        | none => alookup e main) ∧
    (∀ (old info : CandInfo) (src x : String),
      (combineInfo old info src).score = old.score + info.score * score_weight src ∧
      ((x ∈ (combineInfo old info src).reasons) ↔ (x ∈ old.reasons ∨ x ∈ info.reasons)) ∧
      (combineInfo old info src).rating = max old.rating info.rating) ∧
    score_weight "graph_seed" = 1 ∧ score_weight "embed_seed" = 1/100 ∧
    score_weight "graph_pref" = 2 ∧
    (alookup "M2" scenarioA).map CandInfo.score = some (2.006 : Rat) ∧
    (alookup "M3" scenarioA).map CandInfo.score = some (0.004 : Rat) := by
  refine ⟨fun new main src e h => merge_candidates_spec new main src e h,
    fun old info src x => ⟨rfl, mem_updateReasons _ _ _, rfl⟩, ?_, ?_, ?_, ?_, ?_⟩
  · simp [score_weight]
  · simp [score_weight]
  · simp [score_weight]
  · simp [scenarioA, merge_candidates, merge_one, updEntry, combineInfo, defaultInfo,
      alookup, score_weight, updateReasons, addReason]
    norm_num
  · simp [scenarioA, merge_candidates, merge_one, updEntry, combineInfo, defaultInfo,
      alookup, score_weight, updateReasons, addReason]
    norm_num

/-- Witness for C1: the characterization applied at a concrete input. -/
theorem C1_witness :
    alookup "X" (merge_candidates [("X", ⟨1, ["a"], 3⟩)] [("X", ⟨1/2, ["b"], 5⟩)]
      "graph_pref") = some ⟨2, ["a", "b"], 5⟩ := by
  have h := C1_merge_exact_weighted_accumulation.1
    [("X", ⟨1/2, ["b"], 5⟩)] [("X", ⟨1, ["a"], 3⟩)] "graph_pref" "X" (by simp)
  rw [h]
  simp [alookup, combineInfo, score_weight, updateReasons, addReason]
  norm_num

/-- C1 counterexample: the claim's scenario numbers are refuted by the
code — the embedding weight is 0.01, not 0.1, so Scenario A merges to
M2 = 2.006 (not 2.06) and M3 = 0.004 (not 0.04). -/
theorem C1_counterexample :
    score_weight "embed_seed" ≠ (1/10 : Rat) ∧
    (alookup "M2" scenarioA).map CandInfo.score = some (2.006 : Rat) ∧
    (2.006 : Rat) ≠ (2.06 : Rat) ∧
    (alookup "M3" scenarioA).map CandInfo.score = some (0.004 : Rat) ∧
    (0.004 : Rat) ≠ (0.04 : Rat) := by
  refine ⟨by norm_num [score_weight], ?_, by norm_num, ?_, by norm_num⟩
  · simp [scenarioA, merge_candidates, merge_one, updEntry, combineInfo, defaultInfo,
      alookup, score_weight, updateReasons, addReason]
    norm_num
  · simp [scenarioA, merge_candidates, merge_one, updEntry, combineInfo, defaultInfo,
      alookup, score_weight, updateReasons, addReason]
    norm_num

/-! ## Session state (`agent/session_manager.py`) -/

/-- The parsed intent dictionary consumed by `Session.update`
(lines 20-54 of session_manager.py).  Keys absent from the Python dict
are modelled as the corresponding `get` default (empty list / dict /
false). -/
structure ParsedIntent where
  seed_movies : List String
  preferences : List (String × String)
  constraints : List (String × String)
  negations : List (String × String)
  is_follow_up : Bool
  deriving DecidableEq, Repr

/-- `Session.__init__` fields (lines 10-18).  The two entity sets are
`Finset String` (Python sets whose iteration order is never observed by
the session code); the three dictionaries are insertion-ordered
association lists. -/
structure Session where
  user_id : String
  history : List (String × String)
  seed_movies : Finset String
  preferences : List (String × String)
  constraints : List (String × String)
  recommended_movies : Finset String
  negations : List (String × String)
  deriving DecidableEq

/-- `Session.update(parsed_intent)` (lines 20-54): merge seeds,
preferences, constraints and negations, then apply the follow-up
ratchet when `is_follow_up` is truthy, no new seeds were supplied, and
prior recommendations exist. -/
def Session.update (s : Session) (pi : ParsedIntent) : Session :=
  let new_seeds := pi.seed_movies
  let s1 := if new_seeds ≠ [] then
      { s with seed_movies := s.seed_movies ∪ new_seeds.toFinset } else s
  let s2 := if pi.preferences ≠ [] then
      { s1 with preferences := dictUpdate s1.preferences pi.preferences } else s1
  let s3 := if pi.constraints ≠ [] then
      { s2 with constraints := dictUpdate s2.constraints pi.constraints } else s2
  let s4 := if pi.negations ≠ [] then
      { s3 with negations := dictUpdate s3.negations pi.negations } else s3
  if pi.is_follow_up = true ∧ new_seeds = [] ∧ s4.recommended_movies ≠ ∅ then
    { s4 with seed_movies := s4.seed_movies ∪ s4.recommended_movies,
              recommended_movies := ∅ }
  else s4

/-- `Session.add_recommendations(movie_ids)` (lines 56-61). -/
def Session.add_recommendations (s : Session) (movie_ids : List String) : Session :=
  { s with recommended_movies := s.recommended_movies ∪ movie_ids.toFinset }

/-- `Session.get_exclude_list()` (lines 63-67): the union is computed
from the two current fields at call time; no exclude set is stored. -/
def Session.get_exclude_list (s : Session) : Finset String :=
  s.seed_movies ∪ s.recommended_movies

/-- `Session.clear()` (lines 69-79): every field reset, `user_id` kept. -/
def Session.clear (s : Session) : Session :=
  { user_id := s.user_id, history := [], seed_movies := ∅, preferences := [],
    constraints := [], recommended_movies := ∅, negations := [] }

/-- Any sequence of the session-mutating operations. -/
inductive SessionOp where
  | update (pi : ParsedIntent)
  | add_recommendations (ids : List String)
  | clear
  deriving Repr

/-- Apply one operation to the session. -/
def applySessionOp (s : Session) : SessionOp → Session
  | SessionOp.update pi => s.update pi
  | SessionOp.add_recommendations ids => s.add_recommendations ids
  | SessionOp.clear => s.clear

/-- Apply a whole sequence of operations in order. -/
def applySessionOps (s : Session) (ops : List SessionOp) : Session :=
  ops.foldl applySessionOp s

/-- C7 (confirmed): after any sequence of update / add_recommendations /
clear operations, `get_exclude_list` returns exactly the union of the
session's current seed movies and current recommended movies; the union
is recomputed from the two fields at call time (the `Session` record
stores no exclude set at all). -/
theorem C7_exclude_list_is_fresh_union :
    ∀ (ops : List SessionOp) (s0 : Session) (x : String),
      x ∈ (applySessionOps s0 ops).get_exclude_list ↔
        x ∈ (applySessionOps s0 ops).seed_movies ∨
        x ∈ (applySessionOps s0 ops).recommended_movies := by
  intro ops s0 x
  unfold Session.get_exclude_list
  exact Finset.mem_union

/-- C8 (confirmed): on a follow-up intent with no new seeds, all prior
recommended movies are promoted into `seed_movies` and
`recommended_movies` is cleared. -/
theorem C8_follow_up_ratchet (s : Session) (pi : ParsedIntent)
    (hrec : s.recommended_movies ≠ ∅)
    (hfu : pi.is_follow_up = true)
    (hseeds : pi.seed_movies = []) :
    s.recommended_movies ⊆ (s.update pi).seed_movies ∧
    (s.update pi).recommended_movies = ∅ := by
  unfold Session.update
  simp only [hseeds, hfu]
  constructor
  · split_ifs <;> simp_all
  · split_ifs <;> simp_all

/-- Witness for C8: session with prior recommendations {"M5","M6"} and a
follow-up intent with no new seeds. -/
theorem C8_witness :
    ({"M5", "M6"} : Finset String) ⊆
      (Session.update ⟨"u", [], ∅, [], [], {"M5", "M6"}, []⟩
        ⟨[], [], [], [], true⟩).seed_movies ∧
    (Session.update ⟨"u", [], ∅, [], [], {"M5", "M6"}, []⟩
        ⟨[], [], [], [], true⟩).recommended_movies = ∅ :=
  C8_follow_up_ratchet ⟨"u", [], ∅, [], [], {"M5", "M6"}, []⟩
    ⟨[], [], [], [], true⟩ (by decide) rfl rfl

/-! ## Constraint filter (`RecommendationEngine.filter_candidates`,
recommendation_engine.py lines 240-304)

The graph executor is an external collaborator; it is modelled as an
oracle receiving the semantic content of the query built at lines
255-279: the list of candidate IRIs placed into the `VALUES ?movie`
block (in dictionary order) together with the session constraints and
negations, and answering either the list of movie strings of the result
rows or an exception. -/

/-- Oracle for `self.graph_executor.execute_query(query)` as invoked by
`filter_candidates`. -/
structure FilterQueryExec where
  execute_query : List String → List (String × String) → List (String × String) →
    Except PyErr (List String)

/-- The candidate IRIs put into the `VALUES ?movie { … }` block (lines
255-256): all keys of the candidate dictionary, in order — the code
applies no size cap or score-based truncation before the query. -/
def verification_values (candidates : CandMap) : List String :=
  candidates.map Prod.fst

/-- `RecommendationEngine.filter_candidates` (lines 240-304): empty
input short-circuits; the verification query is issued over all
candidate keys; on exception the input map is returned unchanged (fail
open, line 295); otherwise only candidates whose key appears in the
result rows survive, in original order. -/
def filter_candidates (ge : FilterQueryExec) (candidates : CandMap)
    (constraints negations : List (String × String)) : CandMap :=
  if candidates = [] then []
  else
    match ge.execute_query (verification_values candidates) constraints negations with
    | Except.error _ => candidates
    | Except.ok rows =>
        candidates.filter (fun p => p.1 ∈ rows)

/-- A 500-candidate pool whose scores strictly increase with the index,
so "M0" is the unique lowest-score candidate. -/
def pool500 : CandMap :=
  (List.range 500).map (fun (i : Nat) => ("M" ++ toString i, ⟨(i : Rat), [], 0⟩))

/-- C5 counterexample: with a pool of 500 candidates the code sends all
500 candidate IRIs to the verification query — not the 200
highest-current-score ones: the lowest-score candidate "M0" is sent
too, and the list sent has length 500 ≠ 200. -/
theorem C5_counterexample :
    (verification_values pool500).length = 500 ∧
    (500 : Nat) ≠ 200 ∧
    "M0" ∈ verification_values pool500 := by
  refine ⟨?_, by decide, ?_⟩
  · simp only [verification_values, pool500, List.length_map, List.length_range]
  · have h0 : (0 : Nat) ∈ List.range 500 := List.mem_range.2 (by norm_num)
    exact List.mem_map.2 ⟨("M0", ⟨0, [], 0⟩), List.mem_map.2 ⟨0, h0, rfl⟩, rfl⟩

/-- C5 (amended): `filter_candidates` applies no pre-filter truncation:
for every candidate map, every candidate's key is included in the
`VALUES` block sent to the verification query, whatever the pool size
and scores. -/
theorem C5_no_truncation_all_candidates_sent :
    (∀ (candidates : CandMap) (p : String × CandInfo),
      p ∈ candidates → p.1 ∈ verification_values candidates) ∧
    (verification_values pool500).length = 500 := by
  constructor
  · intro candidates p hp
    exact List.mem_map.2 ⟨p, hp, rfl⟩
  · simp only [verification_values, pool500, List.length_map, List.length_range]

/-- Witness for C5 (amended): a concrete candidate's key reaches the
query values. -/
theorem C5_witness :
    "M1" ∈ verification_values [("M1", ⟨1, [], 0⟩), ("M2", ⟨2, [], 0⟩)] :=
  C5_no_truncation_all_candidates_sent.1
    [("M1", ⟨1, [], 0⟩), ("M2", ⟨2, [], 0⟩)] ("M1", ⟨1, [], 0⟩)
    (List.mem_cons_self _ _)

/-- C6 (confirmed): if the verification query raises, filter_candidates
returns the input candidate map unchanged — same entities, scores,
reasons and quality signals (fail open). -/
theorem C6_fail_open (ge : FilterQueryExec) (candidates : CandMap)
    (constraints negations : List (String × String)) (err : PyErr)
    (h : ge.execute_query (verification_values candidates) constraints negations =
      Except.error err) :
    filter_candidates ge candidates constraints negations = candidates := by
  unfold filter_candidates
  by_cases hc : candidates = []
  · rw [if_pos hc, hc]
  · rw [if_neg hc, h]

/-- Witness for C6: an always-throwing query executor leaves a concrete
candidate map untouched. -/
theorem C6_witness :
    filter_candidates ⟨fun _ _ _ => Except.error PyErr.other⟩
      [("M1", ⟨1, ["r"], 7⟩)] [("year", "1990")] [] = [("M1", ⟨1, ["r"], 7⟩)] :=
  C6_fail_open ⟨fun _ _ _ => Except.error PyErr.other⟩
    [("M1", ⟨1, ["r"], 7⟩)] [("year", "1990")] [] PyErr.other rfl

/-! ## Embedding executor (`agent/embedding_executor.py`)

`RecommendationEngine` calls three attributes on its embedding executor:
`get_nearest_neighbors` (line 178), `get_embeddings` (line 351) and
`cosine_similarity` (line 397).  The class `EmbeddingExecutor` defines
none of them; its full method table is reproduced below, so attribute
dispatch is modelled by name: a call on a missing method raises
`AttributeError`. -/

/-- Exactly the methods defined on `class EmbeddingExecutor`
(agent/embedding_executor.py). -/
def embeddingExecutorMethodNames : List String :=
  ["__init__", "_load_embeddings", "_predicate_tails_for_subject",
   "_predicate_tails", "_predicate_heads_for_object", "_predicate_heads",
   "_entity_vec_norm", "_relation_vec_norm", "_pretty_label", "_short_tail",
   "_major_object_type_for_predicate", "_round_score", "query_embedding",
   "query_embedding_head"]

/-- An embedding vector. -/
abbrev Vec := List Rat

/-- An embedding-executor object: its method table plus the behaviour
its methods would have if present (irrelevant for missing methods). -/
structure EmbeddingExecutor where
  methods : List String
  get_nearest_neighbors_impl : String → Nat → String → List (String × Rat)
  get_embeddings_impl : List String → List (Option Vec)
  cosine_similarity_impl : Vec → Vec → Rat

/-- Attribute dispatch for `ee.get_nearest_neighbors(...)`. -/
def call_get_nearest_neighbors (ee : EmbeddingExecutor) (entity_id : String)
    (k : Nat) (embedding_type : String) : Except PyErr (List (String × Rat)) :=
  if "get_nearest_neighbors" ∈ ee.methods then
    Except.ok (ee.get_nearest_neighbors_impl entity_id k embedding_type)
  else Except.error PyErr.attributeError

/-- Attribute dispatch for `ee.get_embeddings(...)`. -/
def call_get_embeddings (ee : EmbeddingExecutor) (ids : List String) :
    Except PyErr (List (Option Vec)) :=
  if "get_embeddings" ∈ ee.methods then Except.ok (ee.get_embeddings_impl ids)
  else Except.error PyErr.attributeError

/-- Attribute dispatch for `ee.cosine_similarity(...)`. -/
def call_cosine_similarity (ee : EmbeddingExecutor) (v w : Vec) :
    Except PyErr Rat :=
  if "cosine_similarity" ∈ ee.methods then Except.ok (ee.cosine_similarity_impl v w)
  else Except.error PyErr.attributeError

/-- The executor as shipped: the real method table (implementations of
the absent methods are never reachable). -/
def realEmbeddingExecutor : EmbeddingExecutor :=
  ⟨embeddingExecutorMethodNames, fun _ _ _ => [], fun _ => [], fun _ _ => 0⟩

/-- The seed loop of `get_embedding_candidates_from_seeds` (lines
175-181): collect `get_nearest_neighbors(seed, 20, 'entity')` for every
seed, concatenating in seed order; the first exception aborts the whole
`try` block. -/
def gather_neighbors (ee : EmbeddingExecutor) :
    List String → Except PyErr (List (String × Rat))
  | [] => Except.ok []
  | seed :: rest =>
    match call_get_nearest_neighbors ee seed 20 "entity" with
    | Except.error e => Except.error e
    | Except.ok ns =>
      match gather_neighbors ee rest with
      | Except.error e => Except.error e
      | Except.ok more => Except.ok (ns ++ more)

/-- Lines 186-191: initialize the record if new, then
`score += similarity` and add the fixed embedding reason string. -/
def add_embedding_neighbor (cands : CandMap) (movie_id : String) (score : Rat) :
    CandMap :=
  let cands' := if (alookup movie_id cands).isSome then cands
    else cands ++ [(movie_id, defaultInfo)]
  updEntry cands' movie_id (fun v =>
    ⟨v.score + score, addReason v.reasons "it\x27s similar to movies you like", v.rating⟩)

/-- `RecommendationEngine.get_embedding_candidates_from_seeds` (lines
169-196): the whole body is wrapped in `try/except`, and `candidates`
is only populated after every neighbor call succeeded, so an exception
returns the still-empty dictionary. -/
def get_embedding_candidates_from_seeds (ee : EmbeddingExecutor)
    (seed_movies exclude_list : List String) : CandMap :=
  match gather_neighbors ee seed_movies with
  | Except.error _ => []
  | Except.ok all_neighbors =>
    all_neighbors.foldl (fun cands p =>
      if p.1 ∈ exclude_list then cands
      else add_embedding_neighbor cands p.1 p.2) []

/-- C4 (confirmed): `EmbeddingExecutor` defines no
`get_nearest_neighbors`, so for every seed set and exclude list the
embedding candidate source returns the empty map (the `AttributeError`
is caught inside the function), and merging an empty source map changes
nothing. -/
theorem C4_embedding_source_always_empty :
    ("get_nearest_neighbors" ∉ embeddingExecutorMethodNames) ∧
    (∀ (seed_movies exclude_list : List String),
      get_embedding_candidates_from_seeds realEmbeddingExecutor
        seed_movies exclude_list = []) ∧
    (∀ (main : CandMap) (src : String), merge_candidates main [] src = main) := by
  refine ⟨by decide, ?_, fun main src => rfl⟩
  intro seeds excl
  cases seeds with
  | nil => rfl
  | cons s rest =>
    have hcall : call_get_nearest_neighbors realEmbeddingExecutor s 20 "entity" =
        Except.error PyErr.attributeError := by
      have : "get_nearest_neighbors" ∉ realEmbeddingExecutor.methods := by decide
      simp [call_get_nearest_neighbors, this]
    simp [get_embedding_candidates_from_seeds, gather_neighbors, hcall]

/-! ## MMR diversification (`RecommendationEngine.apply_mmr_diversity`,
recommendation_engine.py lines 334-418) -/

/-- One entry of the ranked list: `(movie_id, score, reason)`. -/
abbrev RankedEntry := String × Rat × String

/-- The `candidate_pool` dictionary: movie id → (score, reason,
embedding) where the embedding slot stores the (non-`None`) value of
`all_embeddings[i]` as it was bound at line 357. -/
abbrev Pool := List (String × (Rat × String × Option Vec))

/-- Lines 354-357: build `candidate_pool`, keeping only entries whose
embedding is not `None`. -/
def buildPool (ranked : List RankedEntry) (embeds : List (Option Vec)) : Pool :=
  (ranked.zip embeds).foldl (fun pool pe =>
    match pe.2 with
    | some v => dictSet pool pe.1.1 (pe.1.2.1, pe.1.2.2, some v)
    | none => pool) []

/-- Line 364: `max(s for s, r, e in candidate_pool.values())` (the pool
is non-empty whenever this runs). -/
def poolMaxScore : Pool → Rat
  | [] => 0
  | p :: ps => ps.foldl (fun m q => max m q.2.1) p.2.1

/-- Lines 365-368: divide every score by the maximum. -/
def normalizePool (pool : Pool) (ms : Rat) : Pool :=
  pool.map (fun p => (p.1, (p.2.1 / ms, p.2.2.1, p.2.2.2)))

/-- Line 385: `[candidate_pool[mid][2] for mid in selected_ids if mid in
candidate_pool and candidate_pool[mid][2] is not None]` — note that the
lookup is performed in `candidate_pool`, from which every selected id
has already been deleted. -/
def selected_embeds_of (pool : Pool) (selected_ids : List String) : List Vec :=
  selected_ids.filterMap (fun mid =>
    match alookup mid pool with
    | some (_, _, some v) => some v
    | _ => none)

/-- Lines 394-398: fold `max_sim = max(max_sim, cosine_similarity(embed,
sel_embed))` over the selected embeddings, starting from 0.0; each
`cosine_similarity` is an attribute call that can raise. -/
def max_sim_to_selected (ee : EmbeddingExecutor) (embed : Vec) :
    List Vec → Rat → Except PyErr Rat
  | [], m => Except.ok m
  | se :: rest, m =>
    match call_cosine_similarity ee embed se with
    | Except.error e => Except.error e
    | Except.ok sim => max_sim_to_selected ee embed rest (max m sim)

/-- Lines 382-404: scan the pool for the candidate with the strictly
highest `mmr = λ·relevance − (1−λ)·max_sim`; `best_mmr_score` starts at
`-inf`, modelled by the accumulator starting as `none`; candidates with
`None` embedding are skipped. -/
def scanBest (ee : EmbeddingExecutor) (lam : Rat) (sel_embeds : List Vec) :
    Pool → Option (String × Rat) → Except PyErr (Option (String × Rat))
  | [], acc => Except.ok acc
  | (cid, (score, _reason, oe)) :: rest, acc =>
    match oe with
    | none => scanBest ee lam sel_embeds rest acc
    | some embed =>
      match max_sim_to_selected ee embed sel_embeds 0 with
      | Except.error e => Except.error e
      | Except.ok max_sim =>
        let mmr_score := lam * score - (1 - lam) * max_sim
        let acc' := match acc with
          | none => some (cid, mmr_score)
          | some (bid, bs) =>
            if bs < mmr_score then some (cid, mmr_score) else some (bid, bs)
        scanBest ee lam sel_embeds rest acc'

/-- The `while` loop of lines 381-412.  `fuel` is the pool size at loop
entry: every iteration that continues deletes exactly one pool entry,
so the loop runs at most that many times and the fuel-exhausted branch
coincides with the loop's own `pool empty` exit.  The
`if best_item_id:` truthiness test (line 406) treats both `None` and
the empty string as break. -/
def mmr_loop (ee : EmbeddingExecutor) (lam : Rat) (k : Nat) :
    Nat → Pool → List RankedEntry → List String → Except PyErr (List RankedEntry)
  | 0, _pool, selected, _ids => Except.ok selected
  | fuel + 1, pool, selected, selected_ids =>
    if k ≤ selected.length then Except.ok selected
    else if pool = [] then Except.ok selected
    else
      match scanBest ee lam (selected_embeds_of pool selected_ids) pool none with
      | Except.error e => Except.error e
      | Except.ok none => Except.ok selected
      | Except.ok (some (bid, _)) =>
        if bid = "" then Except.ok selected
        else
          match alookup bid pool with
          | none => Except.error PyErr.keyError
          | some (score, reason, _) =>
            mmr_loop ee lam k fuel (dictRemove bid pool)
              (selected ++ [(bid, score, reason)]) (addReason selected_ids bid)

/-- Lines 364-368 as one stage: divide all scores by the maximum when
it is positive, otherwise keep the pool. -/
def normalizeStage (pool0 : Pool) : Pool :=
  if 0 < poolMaxScore pool0 then normalizePool pool0 (poolMaxScore pool0) else pool0

/-- Lines 374-412 as one stage: `list(candidate_pool.keys())[0]` seeds
the selection with the first pool entry (deleted from the pool), then
the `while` loop runs. -/
def mmr_seed_and_loop (ee : EmbeddingExecutor) (k : Nat) (lam : Rat)
    (pool1 : Pool) : Except PyErr (List RankedEntry) :=
  match pool1 with
  | [] => Except.error PyErr.keyError
  | (top_id, (ts, tr, _te)) :: rest =>
    mmr_loop ee lam k rest.length rest [(top_id, ts, tr)] [top_id]

/-- The `try` block of `apply_mmr_diversity` (lines 348-414): fetch all
embeddings at once (an attribute call that raises `AttributeError` on
the shipped executor), build and normalize the pool, seed the selection
with the first pool entry, then run the loop.  (`buildPool` is written
twice below; the code binds `candidate_pool` once, but the expression
is pure so the stages are the same.) -/
def mmr_body (ee : EmbeddingExecutor) (ranked_list : List RankedEntry) (k : Nat)
    (lam : Rat) : Except PyErr (List RankedEntry) :=
  match call_get_embeddings ee (ranked_list.map (fun e => e.1)) with
  | Except.error e => Except.error e
  | Except.ok all_embeddings =>
    if all_embeddings.length < ranked_list.length then Except.error PyErr.indexError
    else if buildPool ranked_list all_embeddings = [] then
      Except.ok (ranked_list.take k)
    else
      mmr_seed_and_loop ee k lam (normalizeStage (buildPool ranked_list all_embeddings))

/-- `RecommendationEngine.apply_mmr_diversity` (lines 334-418): empty
list → `[]`; list of length ≤ k → returned unchanged; otherwise run the
`try` block, and on any exception fall back to `ranked_list[:k]`. -/
def apply_mmr_diversity (ee : EmbeddingExecutor) (ranked_list : List RankedEntry)
    (k : Nat) (lambda_val : Rat) : List RankedEntry :=
  if ranked_list = [] then []
  else if ranked_list.length ≤ k then ranked_list
  else
    match mmr_body ee ranked_list k lambda_val with
    | Except.ok res => res
    | Except.error _ => ranked_list.take k

/-- On the shipped executor the first attribute call of the `try` block
raises, so for every ranked list longer than `k` the function returns
the plain top-`k` truncation. -/
theorem apply_mmr_real_is_take (ranked_list : List RankedEntry) (k : Nat)
    (hk : k < ranked_list.length) :
    apply_mmr_diversity realEmbeddingExecutor ranked_list k (7/10) =
      ranked_list.take k := by
  have hne : ranked_list ≠ [] := by
    intro h; rw [h] at hk; simp at hk
  have hlen : ¬ ranked_list.length ≤ k := not_le.2 hk
  have hni : "get_embeddings" ∉ realEmbeddingExecutor.methods := by decide
  have hbody : mmr_body realEmbeddingExecutor ranked_list k (7/10) =
      Except.error PyErr.attributeError := by
    simp [mmr_body, call_get_embeddings, hni]
  simp [apply_mmr_diversity, hne, hlen, hbody]

/-- C3 (confirmed): `EmbeddingExecutor` defines neither `get_embeddings`
nor `cosine_similarity`, so for every ranked list with more than `k`
entries `apply_mmr_diversity` returns exactly the first `k` entries of
the ranked list — the MMR path is dead code. -/
theorem C3_mmr_dead_code_returns_top_k :
    ("get_embeddings" ∉ embeddingExecutorMethodNames) ∧
    ("cosine_similarity" ∉ embeddingExecutorMethodNames) ∧
    (∀ (ranked_list : List RankedEntry) (k : Nat), k < ranked_list.length →
      apply_mmr_diversity realEmbeddingExecutor ranked_list k (7/10) =
        ranked_list.take k) :=
  ⟨by decide, by decide, apply_mmr_real_is_take⟩

/-- Witness for C3 at a concrete two-element list with k = 1. -/
theorem C3_witness :
    apply_mmr_diversity realEmbeddingExecutor [("a", 2, "ra"), ("b", 1, "rb")] 1
      (7/10) = List.take 1 [("a", 2, "ra"), ("b", 1, "rb")] :=
  C3_mmr_dead_code_returns_top_k.2.2 [("a", 2, "ra"), ("b", 1, "rb")] 1
    (by norm_num)

/-- C9 (confirmed): `apply_mmr_diversity` returns at most `k` entries,
every returned entry is an entry of the input ranked list, and a ranked
list with at most `k` entries is returned unchanged. -/
theorem C9_mmr_bounds_and_identity :
    ∀ (ranked_list : List RankedEntry) (k : Nat),
      (apply_mmr_diversity realEmbeddingExecutor ranked_list k (7/10)).length ≤ k ∧
      (∀ e, e ∈ apply_mmr_diversity realEmbeddingExecutor ranked_list k (7/10) →
        e ∈ ranked_list) ∧
      (ranked_list.length ≤ k →
        apply_mmr_diversity realEmbeddingExecutor ranked_list k (7/10) =
          ranked_list) := by
  intro rl k
  by_cases hnil : rl = []
  · subst hnil
    exact ⟨by simp [apply_mmr_diversity], by simp [apply_mmr_diversity],
      fun _ => by simp [apply_mmr_diversity]⟩
  · by_cases hlen : rl.length ≤ k
    · have hid : apply_mmr_diversity realEmbeddingExecutor rl k (7/10) = rl := by
        simp [apply_mmr_diversity, hnil, hlen]
      exact ⟨by rw [hid]; exact hlen, by rw [hid]; exact fun e he => he,
        fun _ => hid⟩
    · have hk : k < rl.length := not_le.1 hlen
      have htake := apply_mmr_real_is_take rl k hk
      refine ⟨by rw [htake, List.length_take]; exact Nat.min_le_left k rl.length,
        ?_, ?_⟩
      · rw [htake]; exact fun e he => List.take_subset _ _ he
      · intro h; exact absurd h hlen

/-- Witness for C9: identity on a one-element list with k = 1. -/
theorem C9_witness :
    apply_mmr_diversity realEmbeddingExecutor [("a", 1, "r")] 1 (7/10) =
      [("a", 1, "r")] :=
  (C9_mmr_bounds_and_identity [("a", 1, "r")] 1).2.2 (by simp)

/-! ## C2: the similarity-to-selected penalty of the MMR loop -/

/-- Embedding shared by candidates A and B in the C2 scenario. -/
def embA : Vec := [1, 0]

/-- Embedding of candidate C in the C2 scenario. -/
def embC : Vec := [0, 1]

/-- A counterfactual executor that does provide `get_embeddings` and
`cosine_similarity` (A and B get identical vectors, cosine 1; C is
different, cosine 0), exercising the loop of lines 381-412 as written. -/
def hypEmbeddingExecutor : EmbeddingExecutor :=
  ⟨embeddingExecutorMethodNames ++ ["get_embeddings", "cosine_similarity"],
   fun _ _ _ => [],
   fun ids => ids.map (fun id =>
     if id = "A" then some embA else if id = "B" then some embA
     else if id = "C" then some embC else none),
   fun v w => if v = w then 1 else 0⟩

/-- The C2 scenario ranked list: relevance A = 1, B = 0.9, C = 0.8. -/
def rlC2 : List RankedEntry := [("A", 1, "ra"), ("B", 9/10, "rb"), ("C", 8/10, "rc")]

/-- The candidate pool built for the C2 scenario. -/
def poolC2 : Pool :=
  [("A", ((1 : Rat), "ra", some embA)), ("B", ((9 : Rat)/10, "rb", some embA)),
   ("C", ((8 : Rat)/10, "rc", some embC))]

/-- The C2 pool after the top item A was selected and deleted. -/
def poolC2rest : Pool :=
  [("B", ((9 : Rat)/10, "rb", some embA)), ("C", ((8 : Rat)/10, "rc", some embC))]

/-- C2 (code bug): with λ = 0.7 and k = 2 on the scenario list, (a) the
shipped code returns the plain top-2 truncation (the loop is
unreachable, see C3); (b) even an executor that supplies embeddings and
cosine similarity makes the loop select B — the candidate with the
highest `λ·relevance` — because the selected items' embeddings are
looked up in the pool they were already deleted from, so the penalty
term is always 0; while (c) the cosine similarity between B's and A's
embeddings is 1, so the claim's score `λ·rel − (1−λ)·max_sim` is
strictly smaller for B (0.33) than for C (0.56), i.e. the claimed MMR
rule would select C, not B. -/
theorem C2_mmr_penalty_never_applied :
    apply_mmr_diversity realEmbeddingExecutor rlC2 2 (7/10) = rlC2.take 2 ∧
    apply_mmr_diversity hypEmbeddingExecutor rlC2 2 (7/10) =
      [("A", 1, "ra"), ("B", 9/10, "rb")] ∧
    hypEmbeddingExecutor.cosine_similarity_impl embA embA = 1 ∧
    (7/10 : Rat) * (9/10) - (1 - 7/10) * 1 <
      (7/10 : Rat) * (8/10) - (1 - 7/10) * 0 := by
  refine ⟨apply_mmr_real_is_take rlC2 2 (by norm_num [rlC2]), ?_,
    by simp [hypEmbeddingExecutor], by norm_num⟩
  have hemb : call_get_embeddings hypEmbeddingExecutor (rlC2.map (fun e => e.1)) =
      Except.ok [some embA, some embA, some embC] := by
    have hmem : "get_embeddings" ∈ hypEmbeddingExecutor.methods := by
      simp [hypEmbeddingExecutor, embeddingExecutorMethodNames]
    rw [call_get_embeddings, if_pos hmem]
    rfl
  have hpool0 : buildPool rlC2 [some embA, some embA, some embC] = poolC2 := rfl
  have hms : poolMaxScore poolC2 = 1 := by
    norm_num [poolC2, poolMaxScore, max_def]
  have hnorm : normalizeStage poolC2 = poolC2 := by
    rw [normalizeStage, hms, if_pos (by norm_num : (0 : Rat) < 1)]
    simp [normalizePool, poolC2]
  have hsel : selected_embeds_of poolC2rest ["A"] = [] := rfl
  have hscan : scanBest hypEmbeddingExecutor (7/10) [] poolC2rest none =
      Except.ok (some ("B", 7/10 * (9/10) - (1 - 7/10) * 0)) := by
    simp only [poolC2rest, scanBest, max_sim_to_selected]
    rw [if_neg (by norm_num :
      ¬ ((7 : Rat)/10 * (9/10) - (1 - 7/10) * 0 < 7/10 * (8/10) - (1 - 7/10) * 0))]
  have hloop : mmr_loop hypEmbeddingExecutor (7/10) 2 2 poolC2rest
      [("A", 1, "ra")] ["A"] = Except.ok [("A", 1, "ra"), ("B", 9/10, "rb")] := by
    rw [mmr_loop]
    rw [if_neg (by norm_num : ¬ (2 ≤ List.length [(("A" : String), (1 : Rat), "ra")]))]
    rw [if_neg (by simp [poolC2rest] : ¬ poolC2rest = [])]
    rw [hsel]
    simp only [hscan]
    rw [if_neg (by simp : ¬ ("B" : String) = "")]
    simp only [show alookup "B" poolC2rest = some ((9 : Rat)/10, "rb", some embA)
      from rfl]
    rw [mmr_loop]
    rw [if_pos (by norm_num :
      (2 ≤ List.length ([(("A" : String), (1 : Rat), "ra")] ++ [("B", (9 : Rat)/10, "rb")])))]
    rfl
  have hbody : mmr_body hypEmbeddingExecutor rlC2 2 (7/10) =
      Except.ok [("A", 1, "ra"), ("B", 9/10, "rb")] := by
    rw [mmr_body]
    simp only [hemb]
    rw [if_neg (by simp [rlC2] :
      ¬ List.length [some embA, some embA, some embC] < rlC2.length)]
    rw [hpool0]
    rw [if_neg (by simp [poolC2] : ¬ poolC2 = [])]
    rw [hnorm]
    rw [show mmr_seed_and_loop hypEmbeddingExecutor 2 (7/10) poolC2 =
      mmr_loop hypEmbeddingExecutor (7/10) 2 2 poolC2rest [("A", 1, "ra")] ["A"]
      from rfl]
    exact hloop
  rw [apply_mmr_diversity]
  rw [if_neg (by simp [rlC2] : ¬ rlC2 = [])]
  rw [if_neg (by simp [rlC2] : ¬ rlC2.length ≤ 2)]
  simp only [hbody]

/-! ## Ranking (`RecommendationEngine.rank_candidates`,
recommendation_engine.py lines 306-332) -/

/-- Character-wise check that `needle` starts `hay`. -/
def startsWithChars : List Char → List Char → Bool
  | [], _ => true
  | _ :: _, [] => false
  | a :: as, b :: bs => a == b && startsWithChars as bs

/-- Helper for the substring test on character lists. -/
def containsSubChars (needle : List Char) : List Char → Bool
  | [] => needle.isEmpty
  | c :: rest => startsWithChars needle (c :: rest) || containsSubChars needle rest

/-- Model of Python's substring test `needle in hay`. -/
def strContains (hay needle : String) : Bool :=
  containsSubChars needle.toList hay.toList

/-- Lines 319-327: the reason chosen for a candidate.  `reasons` is the
candidate's reason set in its (unspecified, hash-dependent) iteration
order; the filter keeps reasons without the substring `"similar"`, the
first survivor is chosen, otherwise `list(reasons)[0]` — the first
reason in iteration order. -/
def pick_best_reason (reasons : List String) : String :=
  if reasons = [] then "it\x27s a good match"
  else
    match reasons.filter (fun r => ! strContains r "similar") with
    | r :: _ => r
    | [] => reasons.headD "it\x27s a good match"

/-- Stable descending insertion by score: an element is placed before
the first strictly-smaller score, after earlier equal scores. -/
def insertDesc (x : RankedEntry) : List RankedEntry → List RankedEntry
  | [] => [x]
  | y :: ys => if y.2.1 ≤ x.2.1 then x :: y :: ys else y :: insertDesc x ys

/-- Stable descending sort by score — the unique output of Python's
stable `sort(key=score, reverse=True)` (line 331). -/
def sortByScoreDesc : List RankedEntry → List RankedEntry
  | [] => []
  | x :: xs => insertDesc x (sortByScoreDesc xs)

/-- `RecommendationEngine.rank_candidates` (lines 306-332): final score
is `score + (rating / 10) * 0.2`, one reason is chosen per candidate,
and the list is sorted descending by score (stable). -/
def rank_candidates (candidates : CandMap) : List RankedEntry :=
  sortByScoreDesc (candidates.map (fun p =>
    (p.1, p.2.score + p.2.rating / 10 * (2/10), pick_best_reason p.2.reasons)))

/-- The reason string added by the embedding candidate source
(line 191). -/
def embed_reason : String := "it\x27s similar to movies you like"

/-- The reason templates used by the graph seed source (lines 133-139);
an actual reason is a template followed by the quoted shared value. -/
def graph_reason_markers : List String :=
  ["shares the genre", "has the same director", "shares an actor",
   "is in the same series as", "is based on similar work as"]

/-- Whether a string is a reason the graph seed source can produce. -/
def is_graph_seed_reason (r : String) : Bool :=
  graph_reason_markers.any (fun m => startsWithChars m.toList r.toList)

/-- A concrete graph-source reason from the `based on` template
(line 138). -/
def based_on_similar_reason : String := "is based on similar work as \x27Dracula\x27"

theorem mem_insertDesc (x y : RankedEntry) (l : List RankedEntry) :
    y ∈ insertDesc x l ↔ y = x ∨ y ∈ l := by
  induction l with
  | nil => simp [insertDesc]
  | cons z zs ih =>
    simp only [insertDesc]
    split_ifs
    · simp
    · simp only [List.mem_cons, ih]
      tauto

theorem mem_sortByScoreDesc (y : RankedEntry) (l : List RankedEntry) :
    y ∈ sortByScoreDesc l ↔ y ∈ l := by
  induction l with
  | nil => simp [sortByScoreDesc]
  | cons x xs ih => simp [sortByScoreDesc, mem_insertDesc, ih]

/-- C10 counterexample: a candidate holding both a structured graph
reason (from the "is based on similar work as" template) and the
embedding reason is presented with the embedding reason when the set
iteration order lists the embedding reason first — because both
reasons contain the substring `"similar"`, the non-embedding filter of
line 323 keeps neither, and line 327 falls back to the first element of
an unordered set. -/
theorem C10_counterexample :
    rank_candidates
        [("M9", ⟨1, [embed_reason, based_on_similar_reason], 0⟩)] =
      [("M9", 1, embed_reason)] ∧
    is_graph_seed_reason based_on_similar_reason = true ∧
    is_graph_seed_reason embed_reason = false ∧
    based_on_similar_reason ≠ embed_reason ∧
    strContains based_on_similar_reason "similar" = true ∧
    strContains embed_reason "similar" = true := by
  refine ⟨?_, by decide, by decide, by decide, by decide, by decide⟩
  have h : rank_candidates
      [("M9", ⟨1, [embed_reason, based_on_similar_reason], 0⟩)] =
      [("M9", (1 : Rat) + 0 / 10 * (2/10), embed_reason)] := rfl
  rw [h]
  norm_num

/-- C10 (amended): the ranker's reason filter tests for the substring
`"similar"`: whenever the candidate has at least one reason without
that substring, the chosen reason is such a reason (in particular never
the embedding reason); but structured reasons containing `"similar"`
(the "is based on similar work as" template) are treated like the
embedding reason, so the embedding reason can be presented even when a
structured reason exists (see the counterexample).  Every candidate
appears in the ranked output with its chosen reason. -/
theorem C10_reason_selection :
    (∀ (reasons : List String), reasons ≠ [] →
      (∃ x ∈ reasons, strContains x "similar" = false) →
      strContains (pick_best_reason reasons) "similar" = false ∧
      pick_best_reason reasons ∈ reasons ∧
      pick_best_reason reasons ≠ embed_reason) ∧
    (∀ (candidates : CandMap) (p : String × CandInfo), p ∈ candidates →
      (p.1, p.2.score + p.2.rating / 10 * (2/10), pick_best_reason p.2.reasons) ∈
        rank_candidates candidates) := by
  constructor
  · intro reasons hne hex
    obtain ⟨x, hx, hxf⟩ := hex
    have hfil : x ∈ reasons.filter (fun r => ! strContains r "similar") :=
      List.mem_filter.2 ⟨hx, by simp [hxf]⟩
    cases hf : reasons.filter (fun r => ! strContains r "similar") with
    | nil => rw [hf] at hfil; cases hfil
    | cons r rest =>
      have hpick : pick_best_reason reasons = r := by
        rw [pick_best_reason, if_neg hne]
        simp only [hf]
      have hr : r ∈ reasons.filter (fun r => ! strContains r "similar") := by
        rw [hf]; exact List.mem_cons_self r rest
      have hmf := List.mem_filter.1 hr
      have hnc : strContains r "similar" = false := by
        have := hmf.2
        simpa using this
      refine ⟨by rw [hpick]; exact hnc, by rw [hpick]; exact hmf.1, ?_⟩
      rw [hpick]
      intro hcontra
      have : strContains embed_reason "similar" = true := by decide
      rw [hcontra, this] at hnc
      cases hnc
  · intro candidates p hp
    have : (p.1, p.2.score + p.2.rating / 10 * (2/10),
        pick_best_reason p.2.reasons) ∈ candidates.map (fun p =>
          (p.1, p.2.score + p.2.rating / 10 * (2/10),
            pick_best_reason p.2.reasons)) :=
      List.mem_map.2 ⟨p, hp, rfl⟩
    exact (mem_sortByScoreDesc _ _).2 this

/-- Witness for C10 (amended): a candidate with a genre reason and the
embedding reason is presented with the genre reason. -/
theorem C10_witness :
    strContains (pick_best_reason ["shares the genre \x27Horror\x27", embed_reason])
      "similar" = false ∧
    pick_best_reason ["shares the genre \x27Horror\x27", embed_reason] ≠
      embed_reason := by
  have h := C10_reason_selection.1 ["shares the genre \x27Horror\x27", embed_reason]
    (by simp) ⟨"shares the genre \x27Horror\x27", by simp, by decide⟩
  exact ⟨h.1, h.2.2⟩
